import Mathlib

/-!
Verification of the Crucigrama crossword layout generator.

This file gives a shallow embedding of the generator and selection driver
found in the repository source (the `generateCrossword` and
`buildCrosswordForDifficulty` functions together with their helpers), and
proves the specified properties about them.

Randomness: the source draws on an unseeded process-wide random source via a
Fisher-Yates `shuffle`.  The embedding makes every random draw an explicit
oracle parameter: `permW` supplies, per restart, the shuffled word order;
`pick` supplies, per restart and per search state, the shuffled candidate
order; `permU` supplies, per selection attempt, the shuffled usable-word
order.  Universal theorems quantify over all oracles, hence over every
behavior of the source; theorems that need the shuffles to really be
permutations take that as an explicit hypothesis.
-/

namespace Crucigrama

/-- Direction of a placed word, mirroring the source union type. -/
inductive Direction where
  | across
  | down
deriving DecidableEq

instance : Inhabited Direction := ⟨Direction.across⟩

/-- A word definition: answer plus clue.  Answers are letter lists. -/
structure WordDef where
  answer : List Char
  clue : String
deriving DecidableEq

instance : Inhabited WordDef := ⟨⟨[], ""⟩⟩

/-- A placed entry, mirroring the source `Entry` type. -/
structure Entry where
  id : String
  direction : Direction
  row : Int
  col : Int
  answer : List Char
  clue : String
deriving DecidableEq

instance : Inhabited Entry := ⟨⟨"", Direction.across, 0, 0, [], ""⟩⟩

/-- A crossword layout, mirroring the source `Crossword` type. -/
structure Crossword where
  rows : Nat
  cols : Nat
  entries : List Entry
deriving DecidableEq

/-- The working grid: a matrix of optional letters.  The source uses a
`string[][]` where the empty string denotes an empty cell; here an empty
cell is `none`. -/
abbrev Grid := List (List (Option Char))

/-- A candidate start cell (may be out of bounds before `canPlace` filters). -/
abbrev Cand := Int × Int

/-- Mirrors `MAX_RESTARTS = 600` in the source. -/
def MAX_RESTARTS : Nat := 600

/-- Mirrors `makeGrid` in the source: a rows-by-cols matrix of empty cells. -/
def makeGrid (rows cols : Nat) : Grid :=
  List.replicate rows (List.replicate cols none)

/-- Mirrors `inBounds` in the source. -/
def inBounds (rows cols : Nat) (r c : Int) : Bool :=
  decide (0 ≤ r) && decide (r < (rows : Int)) && decide (0 ≤ c) && decide (c < (cols : Int))

/-- Cell lookup.  Out-of-range lookups yield `none`, matching the guarded
accesses in the source (which only reads cells that exist). -/
def gridGet (g : Grid) (r c : Int) : Option Char :=
  if 0 ≤ r ∧ 0 ≤ c then (g.getD r.toNat []).getD c.toNat none else none

/-- JS truthiness of `grid[r][c]`: the cell holds a letter. -/
def occupiedB (g : Grid) (r c : Int) : Bool :=
  (gridGet g r c).isSome

/-- Single cell write (in-range writes only, as in the source). -/
def gridSet (g : Grid) (r c : Int) (ch : Char) : Grid :=
  if 0 ≤ r ∧ 0 ≤ c then g.set r.toNat ((g.getD r.toNat []).set c.toNat (some ch)) else g

/-- Mirrors `canPlace` in the source: bounds, the before/after gap along the
word's own axis, and the per-letter crossing/perpendicular checks. -/
def canPlace (rows cols : Nat) (g : Grid) (word : List Char) (dir : Direction)
    (sr sc : Int) : Bool :=
  let len := word.length
  let endR := sr + (if dir = Direction.down then (len : Int) - 1 else 0)
  let endC := sc + (if dir = Direction.across then (len : Int) - 1 else 0)
  if !(inBounds rows cols sr sc && inBounds rows cols endR endC) then false
  else if dir = Direction.across
      && (decide (0 ≤ sc - 1) && occupiedB g sr (sc - 1)
          || decide (sc + (len : Int) < (cols : Int)) && occupiedB g sr (sc + (len : Int))) then
    false
  else if dir = Direction.down
      && (decide (0 ≤ sr - 1) && occupiedB g (sr - 1) sc
          || decide (sr + (len : Int) < (rows : Int)) && occupiedB g (sr + (len : Int)) sc) then
    false
  else
    (List.range len).all fun i =>
      let r := sr + (if dir = Direction.down then (i : Int) else 0)
      let c := sc + (if dir = Direction.across then (i : Int) else 0)
      match gridGet g r c with
      | some existing => decide (existing = word.getD i default)
      | none =>
        if dir = Direction.across then
          !(decide (0 ≤ r - 1) && occupiedB g (r - 1) c)
            && !(decide (r + 1 < (rows : Int)) && occupiedB g (r + 1) c)
        else
          !(decide (0 ≤ c - 1) && occupiedB g r (c - 1))
            && !(decide (c + 1 < (cols : Int)) && occupiedB g r (c + 1))

/-- Mirrors `applyPlace` in the source: write every letter of the word. -/
def applyPlace (g : Grid) (word : List Char) (dir : Direction) (sr sc : Int) : Grid :=
  (List.range word.length).foldl
    (fun (acc : Grid) (i : Nat) =>
      let r := sr + (if dir = Direction.down then (i : Int) else 0)
      let c := sc + (if dir = Direction.across then (i : Int) else 0)
      gridSet acc r c (word.getD i default))
    g

/-- Mirrors `countOverlaps` in the source. -/
def countOverlaps (g : Grid) (word : List Char) (dir : Direction) (sr sc : Int) : Nat :=
  (List.range word.length).countP fun (i : Nat) =>
    occupiedB g (sr + (if dir = Direction.down then (i : Int) else 0))
      (sc + (if dir = Direction.across then (i : Int) else 0))

/-- Mirrors `getCandidatesByCrossing` in the source, before the shuffle:
for every occupied cell and every matching letter offset, the walked-back
start cell. -/
def getCandidatesByCrossing (rows cols : Nat) (g : Grid) (word : List Char)
    (dir : Direction) : List Cand :=
  (List.range rows).flatMap fun r =>
    (List.range cols).flatMap fun c =>
      match gridGet g (r : Int) (c : Int) with
      | none => []
      | some cell =>
        (List.range word.length).flatMap fun j =>
          if word.getD j default = cell then
            [((if dir = Direction.across then (r : Int) else (r : Int) - (j : Int)),
              (if dir = Direction.across then (c : Int) - (j : Int) else (c : Int)))]
          else []

/-- Mirrors the recursive `backtrack` in the source.  `fuel` counts the
words still to place (`shuffled.length - idx` at every call), making the
recursion structural; the `pick` oracle stands for the shuffle applied to
the candidate list. -/
def backtrackF (rows cols : Nat) (pick : Grid → Nat → List Cand → List Cand) :
    Nat → Grid → Nat → List WordDef → List Direction → List Entry → Nat → Nat →
    Option (List Entry)
  | 0, _, _, _, _, entries, _, _ => some entries
  | fuel + 1, g, idx, shuffled, directions, entries, acrossCount, downCount =>
    let w := shuffled.getD idx default
    let dir := directions.getD idx default
    let crossingCandidates := pick g idx (getCandidatesByCrossing rows cols g w.answer dir)
    if crossingCandidates.isEmpty then none
    else
      crossingCandidates.findSome? fun cand =>
        if canPlace rows cols g w.answer dir cand.1 cand.2
            && decide (0 < countOverlaps g w.answer dir cand.1 cand.2) then
          let nextGrid := applyPlace g w.answer dir cand.1 cand.2
          let nextAcross := if dir = Direction.across then acrossCount + 1 else acrossCount
          let nextDown := if dir = Direction.down then downCount + 1 else downCount
          let pfx := if dir = Direction.across then "A" else "D"
          let numId := if dir = Direction.across then nextAcross else nextDown
          let newEntry : Entry :=
            ⟨pfx ++ Nat.repr numId, dir, cand.1, cand.2, w.answer, w.clue⟩
          backtrackF rows cols pick fuel nextGrid (idx + 1) shuffled directions
            (entries ++ [newEntry]) nextAcross nextDown
        else none

/-- Entry point matching the source `backtrack(grid, idx, ...)`: the source
recursion bottoms out exactly when `idx` reaches `shuffled.length`. -/
def backtrack (rows cols : Nat) (pick : Grid → Nat → List Cand → List Cand)
    (g : Grid) (idx : Nat) (shuffled : List WordDef) (directions : List Direction)
    (entries : List Entry) (acrossCount downCount : Nat) : Option (List Entry) :=
  backtrackF rows cols pick (shuffled.length - idx) g idx shuffled directions entries
    acrossCount downCount

/-- The per-restart uppercased shuffled word list of the source
(`shuffle(words).map(w => ...toUpperCase())`), with the shuffle an oracle. -/
def mkShuffled (permW : Nat → List WordDef → List WordDef) (restart : Nat)
    (words : List WordDef) : List WordDef :=
  (permW restart words).map fun w => ⟨w.answer.map Char.toUpper, w.clue⟩

/-- The alternating direction assignment of the source
(`i % 2 === 0 ? "across" : "down"`). -/
def mkDirections (n : Nat) : List Direction :=
  (List.range n).map fun i => if i % 2 = 0 then Direction.across else Direction.down

/-- The deterministic seed perturbations `[0, -1, 1, -2, 2]`. -/
def offsets : List Int := [0, -1, 1, -2, 2]

/-- The 25 offset combinations in the source's row-major trial order. -/
def offsetPairs : List (Int × Int) :=
  offsets.flatMap fun dr => offsets.map fun dc => (dr, dc)

/-- The candidate seed start cell for offset pair `p`: the board-center
start (the word straddling the center along its own axis) perturbed by the
offsets, exactly as the source computes `baseR/baseC` and `startR0/startC0`. -/
def seedStart (rows cols : Nat) (shuffled : List WordDef) (directions : List Direction)
    (p : Int × Int) : Int × Int :=
  let first := shuffled.headD default
  let firstDir := directions.headD default
  let midR := rows / 2
  let midC := cols / 2
  let baseR := if firstDir = Direction.down
    then (midR : Int) - (Int.ofNat (first.answer.length / 2)) else (midR : Int)
  let baseC := if firstDir = Direction.across
    then (midC : Int) - (Int.ofNat (first.answer.length / 2)) else (midC : Int)
  (baseR + p.1, baseC + p.2)

/-- One seed-offset trial of a restart: place the first word at the offset
start cell if legal, then extend by backtracking; succeed only on a
full-coverage result (`res.length === words.length`). -/
def seedAttempt (rows cols : Nat) (pick : Grid → Nat → List Cand → List Cand)
    (words shuffled : List WordDef) (directions : List Direction)
    (p : Int × Int) : Option Crossword :=
  let grid := makeGrid rows cols
  let first := shuffled.headD default
  let firstDir := directions.headD default
  let startR0 := (seedStart rows cols shuffled directions p).1
  let startC0 := (seedStart rows cols shuffled directions p).2
  if canPlace rows cols grid first.answer firstDir startR0 startC0 then
    let g0 := applyPlace grid first.answer firstDir startR0 startC0
    let id0 := (if firstDir = Direction.across then "A" else "D") ++ "1"
    let entries0 : List Entry := [⟨id0, firstDir, startR0, startC0, first.answer, first.clue⟩]
    let across0 := if firstDir = Direction.across then 1 else 0
    let down0 := if firstDir = Direction.down then 1 else 0
    match backtrack rows cols pick g0 1 shuffled directions entries0 across0 down0 with
    | some res => if res.length = words.length then some ⟨rows, cols, res⟩ else none
    | none => none
  else none

/-- One full restart of the source's outer loop: fresh shuffle, alternating
directions, then the 25 seed offset trials in order. -/
def restartAttempt (pick : Nat → Grid → Nat → List Cand → List Cand)
    (permW : Nat → List WordDef → List WordDef) (words : List WordDef)
    (rows cols : Nat) (restart : Nat) : Option Crossword :=
  let shuffled := mkShuffled permW restart words
  let directions := mkDirections shuffled.length
  offsetPairs.findSome? (seedAttempt rows cols (pick restart) words shuffled directions)

/-- Mirrors `generateCrossword` in the source: empty input short-circuits,
otherwise up to `MAX_RESTARTS` restarts, with the failure layout
`(rows, cols, [])` when every restart fails. -/
def generateCrossword (pick : Nat → Grid → Nat → List Cand → List Cand)
    (permW : Nat → List WordDef → List WordDef) (words : List WordDef)
    (rows cols : Nat) : Crossword :=
  if words.length = 0 then ⟨rows, cols, []⟩
  else
    ((List.range MAX_RESTARTS).findSome? (restartAttempt pick permW words rows cols)).getD
      ⟨rows, cols, []⟩

/-- Difficulty tiers of the selection driver. -/
inductive Difficulty where
  | basic
  | intermediate
  | advanced
deriving DecidableEq

/-- Mirrors `BOARD_SIZE_POR_DIFICULTAD` in the source. -/
def BOARD_SIZE_POR_DIFICULTAD : Difficulty → Nat
  | Difficulty.basic => 9
  | Difficulty.intermediate => 12
  | Difficulty.advanced => 15

/-- Mirrors `getBoardDimensionsForDifficulty` in the source. -/
def getBoardDimensionsForDifficulty (d : Difficulty) : Nat × Nat :=
  (BOARD_SIZE_POR_DIFICULTAD d, BOARD_SIZE_POR_DIFICULTAD d)

/-- Mirrors `PALABRAS_POR_DIFICULTAD` in the source. -/
def PALABRAS_POR_DIFICULTAD : Difficulty → Nat
  | Difficulty.basic => 5
  | Difficulty.intermediate => 10
  | Difficulty.advanced => 15

/-- The JS string value of a difficulty tier. -/
def difficultyName : Difficulty → String
  | Difficulty.basic => "basic"
  | Difficulty.intermediate => "intermediate"
  | Difficulty.advanced => "advanced"

/-- Mirrors `MAX_SELECTION_ATTEMPTS = 300`. -/
def MAX_SELECTION_ATTEMPTS : Nat := 300

/-- Mirrors `CrosswordBuildResult` in the source. -/
structure CrosswordBuildResult where
  crossword : Crossword
  selectedWords : List WordDef
  usableWords : List WordDef
  omittedWords : List WordDef
  requestedWords : Nat
  error : Option String
deriving DecidableEq

/-- The insufficient-words error message of the source. -/
def insufficientWordsMsg (d : Difficulty) (req : Nat) : String :=
  "No hay suficientes palabras para el nivel " ++ difficultyName d ++ " ("
    ++ Nat.repr req ++ " requeridas)."

/-- The could-not-build error message of the source. -/
def couldNotBuildMsg (d : Difficulty) (req : Nat) : String :=
  "No se pudo construir un crucigrama de " ++ Nat.repr req
    ++ " palabras para el nivel " ++ difficultyName d ++ "."

/-- The `usableWords` filter of `buildCrosswordForDifficulty`: answers no
longer than `maxWordLength = max rows cols`. -/
def usableOf (words : List WordDef) (difficulty : Difficulty) : List WordDef :=
  words.filter fun w => decide (w.answer.length
    ≤ max (getBoardDimensionsForDifficulty difficulty).1
        (getBoardDimensionsForDifficulty difficulty).2)

/-- The `omittedWords` filter of `buildCrosswordForDifficulty`: answers
longer than `maxWordLength = max rows cols`. -/
def omittedOf (words : List WordDef) (difficulty : Difficulty) : List WordDef :=
  words.filter fun w => decide (max (getBoardDimensionsForDifficulty difficulty).1
    (getBoardDimensionsForDifficulty difficulty).2 < w.answer.length)

/-- One iteration of the selection loop: sample `requestedWords` words from
the shuffled usable pool, run the engine, succeed only on a full-size
layout. -/
def selectionAttempt (gen : Nat → List WordDef → Nat → Nat → Crossword)
    (permU : Nat → List WordDef → List WordDef)
    (words : List WordDef) (difficulty : Difficulty) (attempt : Nat) :
    Option CrosswordBuildResult :=
  let requestedWords := PALABRAS_POR_DIFICULTAD difficulty
  let selectedWords := (permU attempt (usableOf words difficulty)).take requestedWords
  let crossword := gen attempt selectedWords (getBoardDimensionsForDifficulty difficulty).1
    (getBoardDimensionsForDifficulty difficulty).2
  if crossword.entries.length = requestedWords then
    some (⟨crossword, selectedWords, usableOf words difficulty, omittedOf words difficulty,
      requestedWords, none⟩ : CrosswordBuildResult)
  else none

/-- Mirrors `buildCrosswordForDifficulty` with the placement engine as an
explicit parameter `gen` (in the source, `generateCrossword` is a free
reference) and the selection shuffle as the oracle `permU`. -/
def buildWith (gen : Nat → List WordDef → Nat → Nat → Crossword)
    (permU : Nat → List WordDef → List WordDef)
    (words : List WordDef) (difficulty : Difficulty) : CrosswordBuildResult :=
  let rows := (getBoardDimensionsForDifficulty difficulty).1
  let cols := (getBoardDimensionsForDifficulty difficulty).2
  let requestedWords := PALABRAS_POR_DIFICULTAD difficulty
  if (usableOf words difficulty).length < requestedWords then
    ⟨⟨rows, cols, []⟩, [], usableOf words difficulty, omittedOf words difficulty,
      requestedWords, some (insufficientWordsMsg difficulty requestedWords)⟩
  else
    match (List.range MAX_SELECTION_ATTEMPTS).findSome?
        (selectionAttempt gen permU words difficulty) with
    | some r => r
    | none =>
      ⟨⟨rows, cols, []⟩, [], usableOf words difficulty, omittedOf words difficulty,
        requestedWords, some (couldNotBuildMsg difficulty requestedWords)⟩

/-- The source `buildCrosswordForDifficulty`, with all random draws as
oracles (`pick` and `permW` additionally keyed by the attempt number). -/
def buildCrosswordForDifficulty
    (pick : Nat → Nat → Grid → Nat → List Cand → List Cand)
    (permW : Nat → Nat → List WordDef → List WordDef)
    (permU : Nat → List WordDef → List WordDef)
    (words : List WordDef) (difficulty : Difficulty) : CrosswordBuildResult :=
  buildWith
    (fun attempt selected rows cols =>
      generateCrossword (pick attempt) (permW attempt) selected rows cols)
    permU words difficulty

/-! ### The finalization numbering pass

The UI component derives display numbers from a finished layout by a
row-major scan over the grid for start-of-entry cells (the `starts` set and
`numbers` map in the source's `useMemo`). -/

/-- Start-of-entry cells in row-major scan order. -/
def scanStarts (cw : Crossword) : List (Int × Int) :=
  (List.range cw.rows).flatMap fun r =>
    (List.range cw.cols).flatMap fun c =>
      if cw.entries.any fun e => decide (e.row = (r : Int)) && decide (e.col = (c : Int)) then
        [((r : Int), (c : Int))]
      else []

/-- The number assigned to a start cell by the row-major scan (`numbers[k]`
in the source): the n-th distinct start cell encountered gets number n. -/
def cellNumber (cw : Crossword) (pos : Int × Int) : Option Nat :=
  ((scanStarts cw).findIdx? fun q => decide (q = pos)).map (· + 1)

/-- Modelled from the claim wording of C2: the display identifier an entry
would get if its numeral were taken from the shared row-major scan
numbering. -/
def specEntryId (cw : Crossword) (e : Entry) : String :=
  (if e.direction = Direction.across then "A" else "D")
    ++ Nat.repr ((cellNumber cw (e.row, e.col)).getD 0)

/-! ### Semantic view of placed entries -/

/-- The i-th letter cell of a word placed at `(sr, sc)` in direction `dir`,
exactly as the placement loops compute it. -/
def wcell (dir : Direction) (sr sc : Int) (i : Nat) : Int × Int :=
  (sr + (if dir = Direction.down then (i : Int) else 0),
   sc + (if dir = Direction.across then (i : Int) else 0))

/-- The i-th letter cell of an entry. -/
def ecell (e : Entry) (i : Nat) : Int × Int :=
  wcell e.direction e.row e.col i

/-- The i-th letter of an entry. -/
def eletter (e : Entry) (i : Nat) : Char :=
  e.answer.getD i default

/-- A list of entries claims a position when some entry has a letter cell
there. -/
def coveredBy (es : List Entry) (pos : Int × Int) : Prop :=
  ∃ e ∈ es, ∃ i, i < e.answer.length ∧ ecell e i = pos

/-- Boolean version of `coveredBy`, for concrete evaluation. -/
def coveredByB (es : List Entry) (pos : Int × Int) : Bool :=
  es.any fun e => (List.range e.answer.length).any fun i => decide (ecell e i = pos)

/-- The cell immediately before a placement's start, along its own axis. -/
def wbefore (dir : Direction) (sr sc : Int) : Int × Int :=
  if dir = Direction.across then (sr, sc - 1) else (sr - 1, sc)

/-- The cell immediately after a placement's end, along its own axis. -/
def wafter (dir : Direction) (sr sc : Int) (len : Nat) : Int × Int :=
  if dir = Direction.across then (sr, sc + (len : Int)) else (sr + (len : Int), sc)

/-- The two neighbor cells of a position, perpendicular to a direction. -/
def wperp (dir : Direction) (pos : Int × Int) : (Int × Int) × (Int × Int) :=
  if dir = Direction.across then ((pos.1 - 1, pos.2), (pos.1 + 1, pos.2))
  else ((pos.1, pos.2 - 1), (pos.1, pos.2 + 1))

/-- The cell immediately before an entry's start, along its own axis. -/
def beforeCell (e : Entry) : Int × Int :=
  wbefore e.direction e.row e.col

/-- The cell immediately after an entry's end, along its own axis. -/
def afterCell (e : Entry) : Int × Int :=
  wafter e.direction e.row e.col e.answer.length

/-- The two neighbor cells of the i-th letter cell, perpendicular to the
entry's direction. -/
def perpCells (e : Entry) (i : Nat) : (Int × Int) × (Int × Int) :=
  wperp e.direction (ecell e i)

/-- The entry at index i shares some letter cell, with equal letters, with
an entry placed earlier in the solution. -/
def CrossAt (es : List Entry) (i : Nat) : Prop :=
  ∃ j, j < i ∧ ∃ k, k < (es.getD i default).answer.length ∧ ∃ m,
    m < (es.getD j default).answer.length ∧
    ecell (es.getD i default) k = ecell (es.getD j default) m ∧
    eletter (es.getD i default) k = eletter (es.getD j default) m

/-- Placement-time adjacency legality of an entry against the entries
placed before it. -/
def AdjOK (prior : List Entry) (e : Entry) : Prop :=
  ¬ coveredBy prior (beforeCell e) ∧ ¬ coveredBy prior (afterCell e) ∧
  ∀ i, i < e.answer.length → ¬ coveredBy prior (ecell e i) →
    ¬ coveredBy prior (perpCells e i).1 ∧ ¬ coveredBy prior (perpCells e i).2

/-- A cell lies within the board. -/
def inBoundsCell (rows cols : Nat) (pos : Int × Int) : Prop :=
  0 ≤ pos.1 ∧ pos.1 < (rows : Int) ∧ 0 ≤ pos.2 ∧ pos.2 < (cols : Int)

/-- Number of entries with the given direction. -/
def countDir (d : Direction) (es : List Entry) : Nat :=
  es.countP fun e => decide (e.direction = d)

/-- The identifier the backtracking code actually assigns: the direction
letter followed by the rank of the entry among same-direction entries in
placement order. -/
def idFor (es : List Entry) (i : Nat) : String :=
  (if (es.getD i default).direction = Direction.across then "A" else "D")
    ++ Nat.repr (countDir (es.getD i default).direction (es.take (i + 1)))

/-- Invariant tying a search grid to the entries placed so far, together
with all the structural properties the claims are about. -/
structure GoodGrid (rows cols : Nat) (g : Grid) (entries : List Entry) : Prop where
  shapeLen : g.length = rows
  shapeRow : ∀ row ∈ g, row.length = cols
  reprA : ∀ e ∈ entries, ∀ i, i < e.answer.length →
    gridGet g (ecell e i).1 (ecell e i).2 = some (eletter e i)
  reprB : ∀ r c ch, gridGet g r c = some ch →
    ∃ e ∈ entries, ∃ i, i < e.answer.length ∧ ecell e i = (r, c) ∧ eletter e i = ch
  bounds : ∀ e ∈ entries, ∀ i, i < e.answer.length → inBoundsCell rows cols (ecell e i)
  crossing : ∀ i, 0 < i → i < entries.length → CrossAt entries i
  adjacency : ∀ i, i < entries.length → AdjOK (entries.take i) (entries.getD i default)
  idsOK : ∀ i, i < entries.length → (entries.getD i default).id = idFor entries i

/-! ### Claim formalizations (modelled from the claim wording, for the
claims the code refutes) -/

/-- Modelled from the claim wording of C2: every entry's identifier numeral
comes from the shared row-major scan numbering of its start cell. -/
def claimSharedNumbering (cw : Crossword) : Bool :=
  cw.entries.all fun e => decide (e.id = specEntryId cw e)

/-- Modelled from the claim wording of C5 (final-layout reading): for every
entry, the before/after cells along its axis hold no letter of any other
entry, and every letter cell not shared with an earlier entry has both
perpendicular neighbor cells free of letters of any other entry. -/
def claimAdjacencyFinal (cw : Crossword) : Bool :=
  (List.range cw.entries.length).all fun i =>
    let e := cw.entries.getD i default
    let others := ((List.range cw.entries.length).filter fun j => decide (j ≠ i)).map
      fun j => cw.entries.getD j default
    !(coveredByB others (beforeCell e)) && !(coveredByB others (afterCell e)) &&
    (List.range e.answer.length).all fun k =>
      coveredByB (cw.entries.take i) (ecell e k)
        || (!(coveredByB others (perpCells e k).1) && !(coveredByB others (perpCells e k).2))

/-! ### Concrete inputs used by the counterexamples and witnesses -/

/-- Identity candidate-order oracle. -/
def idPick : Nat → Grid → Nat → List Cand → List Cand := fun _ _ _ l => l

/-- Identity word-shuffle oracle. -/
def idPerm : Nat → List WordDef → List WordDef := fun _ ws => ws

/-- A two-word input on a 2x5 board: the only crossing of BZ through the
seed ABC needs the seed on row 0, while the center seed row is 1. -/
def wordsCX : List WordDef := [⟨['A', 'B', 'C'], "c1"⟩, ⟨['B', 'Z'], "c2"⟩]

/-- The layout the generator produces on `wordsCX` with identity oracles. -/
def cwCX : Crossword := generateCrossword idPick idPerm wordsCX 2 5

/-! ### Grid lemmas -/

theorem gridGet_makeGrid (rows cols : Nat) (r c : Int) :
    gridGet (makeGrid rows cols) r c = none := by
  unfold gridGet makeGrid
  split
  · simp only [List.getD_eq_getElem?_getD, List.getElem?_replicate]
    split
    · simp only [Option.getD_some, List.getElem?_replicate]
      split <;> rfl
    · rfl
  · rfl

theorem length_gridSet (g : Grid) (r c : Int) (ch : Char) :
    (gridSet g r c ch).length = g.length := by
  unfold gridSet
  split
  · exact List.length_set ..
  · rfl

theorem shapeRow_gridSet {g : Grid} {cols : Nat} (h : ∀ row ∈ g, row.length = cols)
    (r c : Int) (ch : Char) : ∀ row ∈ gridSet g r c ch, row.length = cols := by
  unfold gridSet
  split
  · by_cases hr : r.toNat < g.length
    · intro row hrow
      rcases List.mem_or_eq_of_mem_set hrow with h1 | h1
      · exact h _ h1
      · subst h1
        rw [List.length_set, List.getD_eq_getElem?_getD, List.getElem?_eq_getElem hr,
          Option.getD_some]
        exact h _ (List.getElem_mem hr)
    · rw [List.set_eq_of_length_le (Nat.le_of_not_lt hr)]
      exact h
  · exact h

theorem gridGet_gridSet_same {g : Grid} {rows cols : Nat}
    (hlen : g.length = rows) (hrow : ∀ row ∈ g, row.length = cols)
    {r c : Int} (hr0 : 0 ≤ r) (hrlt : r < (rows : Int)) (hc0 : 0 ≤ c)
    (hclt : c < (cols : Int)) (ch : Char) :
    gridGet (gridSet g r c ch) r c = some ch := by
  unfold gridGet gridSet
  rw [if_pos ⟨hr0, hc0⟩, if_pos ⟨hr0, hc0⟩]
  have hrn : r.toNat < g.length := by rw [hlen]; omega
  have hcn : c.toNat < (g[r.toNat]?.getD []).length := by
    rw [List.getElem?_eq_getElem hrn, Option.getD_some, hrow _ (List.getElem_mem hrn)]
    omega
  simp only [List.getD_eq_getElem?_getD]
  rw [List.getElem?_set_self hrn, Option.getD_some, List.getElem?_set_self hcn,
    Option.getD_some]

theorem gridGet_gridSet_other {g : Grid} {r c r' c' : Int}
    (hne : ¬(r = r' ∧ c = c')) (ch : Char) :
    gridGet (gridSet g r c ch) r' c' = gridGet g r' c' := by
  unfold gridSet
  split
  · rename_i hrc
    unfold gridGet
    simp only [List.getD_eq_getElem?_getD]
    split
    · rename_i hrc'
      by_cases hr : r = r'
      · have hc : c ≠ c' := fun hcc => hne ⟨hr, hcc⟩
        have hcn : c.toNat ≠ c'.toNat := by omega
        subst hr
        by_cases hrn : r.toNat < g.length
        · rw [List.getElem?_set_self hrn, Option.getD_some,
            List.getElem?_set_ne hcn, List.getElem?_eq_getElem hrn, Option.getD_some]
        · rw [List.set_eq_of_length_le (Nat.le_of_not_lt hrn)]
      · have hrn : r.toNat ≠ r'.toNat := by omega
        rw [List.getElem?_set_ne hrn]
    · rfl
  · rfl

/-! ### Characterizing `applyPlace` -/

/-- `applyPlace` restricted to the first `n` letters. -/
def placePrefix (g : Grid) (word : List Char) (dir : Direction) (sr sc : Int)
    (n : Nat) : Grid :=
  (List.range n).foldl
    (fun (acc : Grid) (i : Nat) =>
      gridSet acc (wcell dir sr sc i).1 (wcell dir sr sc i).2 (word.getD i default)) g

theorem applyPlace_eq_placePrefix (g : Grid) (word : List Char) (dir : Direction)
    (sr sc : Int) : applyPlace g word dir sr sc = placePrefix g word dir sr sc word.length :=
  rfl

theorem placePrefix_succ (g : Grid) (word : List Char) (dir : Direction) (sr sc : Int)
    (n : Nat) :
    placePrefix g word dir sr sc (n + 1) =
      gridSet (placePrefix g word dir sr sc n) (wcell dir sr sc n).1 (wcell dir sr sc n).2
        (word.getD n default) := by
  unfold placePrefix
  rw [List.range_succ, List.foldl_append]
  rfl

theorem length_placePrefix (g : Grid) (word : List Char) (dir : Direction) (sr sc : Int) :
    ∀ n, (placePrefix g word dir sr sc n).length = g.length
  | 0 => rfl
  | n + 1 => by
    rw [placePrefix_succ, length_gridSet, length_placePrefix g word dir sr sc n]

theorem shapeRow_placePrefix {g : Grid} {cols : Nat} (h : ∀ row ∈ g, row.length = cols)
    (word : List Char) (dir : Direction) (sr sc : Int) :
    ∀ n, ∀ row ∈ placePrefix g word dir sr sc n, row.length = cols
  | 0 => h
  | n + 1 => by
    rw [placePrefix_succ]
    exact shapeRow_gridSet (shapeRow_placePrefix h word dir sr sc n) _ _ _

theorem wcell_inj {dir : Direction} {sr sc : Int} {i j : Nat} (hne : i ≠ j) :
    wcell dir sr sc i ≠ wcell dir sr sc j := by
  cases dir <;> simp [wcell, Prod.ext_iff] <;> omega

theorem gridGet_placePrefix_miss {g : Grid} {word : List Char} {dir : Direction}
    {sr sc : Int} {r c : Int} :
    ∀ n, (∀ i, i < n → wcell dir sr sc i ≠ (r, c)) →
    gridGet (placePrefix g word dir sr sc n) r c = gridGet g r c
  | 0, _ => rfl
  | n + 1, h => by
    rw [placePrefix_succ, gridGet_gridSet_other, gridGet_placePrefix_miss n
      (fun i hi => h i (by omega))]
    intro hc
    exact h n (by omega) (by rw [Prod.ext_iff]; exact ⟨hc.1, hc.2⟩)

theorem gridGet_placePrefix_hit {g : Grid} {rows cols : Nat} {word : List Char}
    {dir : Direction} {sr sc : Int}
    (hlen : g.length = rows) (hrow : ∀ row ∈ g, row.length = cols) :
    ∀ n i, i < n → (∀ j, j < n → inBoundsCell rows cols (wcell dir sr sc j)) →
    gridGet (placePrefix g word dir sr sc n) (wcell dir sr sc i).1 (wcell dir sr sc i).2
      = some (word.getD i default) := by
  intro n
  induction n with
  | zero => intro i hi _; omega
  | succ n ih =>
    intro i hi hb
    rw [placePrefix_succ]
    by_cases hin : i = n
    · subst hin
      obtain ⟨h1, h2, h3, h4⟩ := hb i (by omega)
      exact gridGet_gridSet_same (by rw [length_placePrefix, hlen])
        (shapeRow_placePrefix hrow word dir sr sc i) h1 h2 h3 h4 _
    · rw [gridGet_gridSet_other]
      · exact ih i (by omega) (fun j hj => hb j (by omega))
      · intro hc
        exact wcell_inj (Ne.symm hin) (by rw [Prod.ext_iff]; exact ⟨hc.1, hc.2⟩)

theorem gridGet_applyPlace_hit {g : Grid} {rows cols : Nat} {word : List Char}
    {dir : Direction} {sr sc : Int}
    (hlen : g.length = rows) (hrow : ∀ row ∈ g, row.length = cols)
    (hb : ∀ j, j < word.length → inBoundsCell rows cols (wcell dir sr sc j))
    {i : Nat} (hi : i < word.length) :
    gridGet (applyPlace g word dir sr sc) (wcell dir sr sc i).1 (wcell dir sr sc i).2
      = some (word.getD i default) := by
  rw [applyPlace_eq_placePrefix]
  exact gridGet_placePrefix_hit hlen hrow word.length i hi hb

theorem gridGet_applyPlace_miss {g : Grid} {word : List Char} {dir : Direction}
    {sr sc : Int} {r c : Int} (h : ∀ i, i < word.length → wcell dir sr sc i ≠ (r, c)) :
    gridGet (applyPlace g word dir sr sc) r c = gridGet g r c := by
  rw [applyPlace_eq_placePrefix]
  exact gridGet_placePrefix_miss word.length h

/-! ### What `canPlace` guarantees -/

/-- A cell is out of bounds or empty in the grid. -/
def freeOrOut (rows cols : Nat) (g : Grid) (pos : Int × Int) : Prop :=
  ¬ inBoundsCell rows cols pos ∨ gridGet g pos.1 pos.2 = none

theorem occupiedB_eq_false_iff {g : Grid} {r c : Int} :
    occupiedB g r c = false ↔ gridGet g r c = none := by
  unfold occupiedB
  cases h : gridGet g r c <;> simp

theorem ite_false_true {c : Prop} [Decidable c] {x : Bool}
    (h : (if c then false else x) = true) : ¬c ∧ x = true := by
  by_cases hc : c
  · rw [if_pos hc] at h
    exact Bool.noConfusion h
  · rw [if_neg hc] at h
    exact ⟨hc, h⟩

theorem canPlace_bounds {rows cols : Nat} {g : Grid} {word : List Char} {dir : Direction}
    {sr sc : Int} (h : canPlace rows cols g word dir sr sc = true) :
    ∀ i, i < word.length → inBoundsCell rows cols (wcell dir sr sc i) := by
  intro i hi
  simp only [canPlace] at h
  obtain ⟨hg1, h⟩ := ite_false_true h
  simp only [Bool.not_eq_true, Bool.not_eq_false', Bool.and_eq_true, inBounds,
    decide_eq_true_eq] at hg1
  obtain ⟨hA, hB⟩ := hg1
  cases dir <;> simp only [wcell, inBoundsCell] at hA hB ⊢ <;> simp at hA hB ⊢ <;> omega

theorem canPlace_matches {rows cols : Nat} {g : Grid} {word : List Char} {dir : Direction}
    {sr sc : Int} (h : canPlace rows cols g word dir sr sc = true) :
    ∀ i, i < word.length → ∀ ch,
      gridGet g (wcell dir sr sc i).1 (wcell dir sr sc i).2 = some ch →
      ch = word.getD i default := by
  intro i hi ch hg
  simp only [canPlace] at h
  obtain ⟨hg1, h⟩ := ite_false_true h
  obtain ⟨hg2, h⟩ := ite_false_true h
  obtain ⟨hg3, h⟩ := ite_false_true h
  rw [List.all_eq_true] at h
  have hspec := h i (List.mem_range.mpr hi)
  simp only [wcell] at hg
  simp only [hg, decide_eq_true_eq] at hspec
  exact hspec

theorem freeOrOut_intro {rows cols : Nat} {g : Grid} {pos : Int × Int}
    (h : ¬ inBoundsCell rows cols pos ∨ occupiedB g pos.1 pos.2 = false) :
    freeOrOut rows cols g pos := by
  rcases h with h | h
  · exact Or.inl h
  · exact Or.inr (occupiedB_eq_false_iff.mp h)

theorem canPlace_perp {rows cols : Nat} {g : Grid} {word : List Char} {dir : Direction}
    {sr sc : Int} (h : canPlace rows cols g word dir sr sc = true) :
    ∀ i, i < word.length →
      gridGet g (wcell dir sr sc i).1 (wcell dir sr sc i).2 = none →
      freeOrOut rows cols g (wperp dir (wcell dir sr sc i)).1 ∧
      freeOrOut rows cols g (wperp dir (wcell dir sr sc i)).2 := by
  intro i hi hg
  simp only [canPlace] at h
  obtain ⟨hg1, h⟩ := ite_false_true h
  obtain ⟨hg2, h⟩ := ite_false_true h
  obtain ⟨hg3, h⟩ := ite_false_true h
  rw [List.all_eq_true] at h
  have hspec := h i (List.mem_range.mpr hi)
  simp only [wcell] at hg
  simp only [hg, Bool.and_eq_true, Bool.not_eq_true', Bool.and_eq_false_iff,
    decide_eq_false_iff_not, not_le, occupiedB_eq_false_iff] at hspec
  cases dir <;> simp only [wperp, wcell] at hspec ⊢ <;> simp at hspec ⊢ <;>
    exact ⟨freeOrOut_intro (hspec.1.imp
        (fun h1 hin => by simp only [inBoundsCell] at hin; omega) (fun h1 => h1)),
      freeOrOut_intro (hspec.2.imp
        (fun h1 hin => by simp only [inBoundsCell] at hin; omega) (fun h1 => h1))⟩

theorem canPlace_edgeBefore {rows cols : Nat} {g : Grid} {word : List Char} {dir : Direction}
    {sr sc : Int} (h : canPlace rows cols g word dir sr sc = true) :
    freeOrOut rows cols g (wbefore dir sr sc) := by
  simp only [canPlace] at h
  obtain ⟨hg1, h⟩ := ite_false_true h
  obtain ⟨hg2, h⟩ := ite_false_true h
  obtain ⟨hg3, h⟩ := ite_false_true h
  cases dir
  case across =>
    simp only [Bool.not_eq_true, Bool.and_eq_false_iff, Bool.or_eq_false_iff,
      decide_eq_false_iff_not, occupiedB_eq_false_iff] at hg2
    simp only [wbefore] at *
    simp at hg2 ⊢
    exact Or.imp (fun h1 hin => by simp only [inBoundsCell] at hin; omega)
      (fun h1 => h1) hg2.1
  case down =>
    simp only [Bool.not_eq_true, Bool.and_eq_false_iff, Bool.or_eq_false_iff,
      decide_eq_false_iff_not, occupiedB_eq_false_iff] at hg3
    simp only [wbefore] at *
    simp at hg3 ⊢
    exact Or.imp (fun h1 hin => by simp only [inBoundsCell] at hin; omega)
      (fun h1 => h1) hg3.1

theorem canPlace_edgeAfter {rows cols : Nat} {g : Grid} {word : List Char} {dir : Direction}
    {sr sc : Int} (h : canPlace rows cols g word dir sr sc = true) :
    freeOrOut rows cols g (wafter dir sr sc word.length) := by
  simp only [canPlace] at h
  obtain ⟨hg1, h⟩ := ite_false_true h
  obtain ⟨hg2, h⟩ := ite_false_true h
  obtain ⟨hg3, h⟩ := ite_false_true h
  cases dir
  case across =>
    simp only [Bool.not_eq_true, Bool.and_eq_false_iff, Bool.or_eq_false_iff,
      decide_eq_false_iff_not, occupiedB_eq_false_iff] at hg2
    simp only [wafter] at *
    simp at hg2 ⊢
    exact Or.imp (fun h1 hin => by simp only [inBoundsCell] at hin; omega)
      (fun h1 => h1) hg2.2
  case down =>
    simp only [Bool.not_eq_true, Bool.and_eq_false_iff, Bool.or_eq_false_iff,
      decide_eq_false_iff_not, occupiedB_eq_false_iff] at hg3
    simp only [wafter] at *
    simp at hg3 ⊢
    exact Or.imp (fun h1 hin => by simp only [inBoundsCell] at hin; omega)
      (fun h1 => h1) hg3.2

theorem countOverlaps_pos {g : Grid} {word : List Char} {dir : Direction} {sr sc : Int}
    (h : 0 < countOverlaps g word dir sr sc) :
    ∃ i, i < word.length ∧ ∃ ch,
      gridGet g (wcell dir sr sc i).1 (wcell dir sr sc i).2 = some ch := by
  unfold countOverlaps at h
  rw [List.countP_pos_iff] at h
  obtain ⟨i, hi, hp⟩ := h
  refine ⟨i, List.mem_range.mp hi, ?_⟩
  simp only [occupiedB, Option.isSome_iff_exists] at hp
  obtain ⟨ch, hch⟩ := hp
  exact ⟨ch, by simpa [wcell] using hch⟩

theorem countOverlaps_nil {g : Grid} {dir : Direction} {sr sc : Int} :
    countOverlaps g [] dir sr sc = 0 := rfl

/-! ### Preservation of the `GoodGrid` invariant -/

theorem coveredBy_occupied {rows cols : Nat} {g : Grid} {entries : List Entry}
    {pos : Int × Int} (hG : GoodGrid rows cols g entries) (h : coveredBy entries pos) :
    (∃ ch, gridGet g pos.1 pos.2 = some ch) ∧ inBoundsCell rows cols pos := by
  obtain ⟨e, he, i, hi, hcell⟩ := h
  subst hcell
  exact ⟨⟨eletter e i, hG.reprA e he i hi⟩, hG.bounds e he i hi⟩

theorem not_coveredBy_of_freeOrOut {rows cols : Nat} {g : Grid} {entries : List Entry}
    {pos : Int × Int} (hG : GoodGrid rows cols g entries)
    (h : freeOrOut rows cols g pos) : ¬ coveredBy entries pos := by
  intro hc
  obtain ⟨⟨ch, hch⟩, hin⟩ := coveredBy_occupied hG hc
  rcases h with h | h
  · exact h hin
  · rw [h] at hch
    exact Option.noConfusion hch

theorem countDir_append (d : Direction) (es fs : List Entry) :
    countDir d (es ++ fs) = countDir d es + countDir d fs := by
  unfold countDir
  exact List.countP_append ..

theorem getD_append_left' {es fs : List Entry} {i : Nat} (h : i < es.length) (d : Entry) :
    (es ++ fs).getD i d = es.getD i d := by
  simp only [List.getD_eq_getElem?_getD, List.getElem?_append_left h]

theorem getD_append_self {es : List Entry} {e d : Entry} :
    (es ++ [e]).getD es.length d = e := by
  simp only [List.getD_eq_getElem?_getD, List.getElem?_append_right (Nat.le_refl _)]
  simp

theorem take_append_le {α : Type} {l₁ l₂ : List α} {n : Nat} (h : n ≤ l₁.length) :
    (l₁ ++ l₂).take n = l₁.take n := by
  rw [List.take_append_eq_append_take, Nat.sub_eq_zero_of_le h]
  simp

theorem CrossAt_append_left {es fs : List Entry} {i : Nat} (hi : i < es.length)
    (h : CrossAt es i) : CrossAt (es ++ fs) i := by
  obtain ⟨j, hj, k, hk, m, hm, h1, h2⟩ := h
  refine ⟨j, hj, k, by rw [getD_append_left' hi]; exact hk, m,
    by rw [getD_append_left' (Nat.lt_trans hj hi)]; exact hm,
    by rw [getD_append_left' hi, getD_append_left' (Nat.lt_trans hj hi)]; exact h1,
    by rw [getD_append_left' hi, getD_append_left' (Nat.lt_trans hj hi)]; exact h2⟩

theorem countDir_singleton_self (e : Entry) : countDir e.direction [e] = 1 := by
  unfold countDir
  simp

theorem idFor_singleton (e : Entry) :
    idFor [e] 0 = (if e.direction = Direction.across then "A" else "D") ++ "1" := by
  unfold idFor
  have h1 : countDir ([e].getD 0 default).direction ([e].take (0 + 1)) = 1 :=
    countDir_singleton_self e
  rw [h1]
  rfl

theorem GoodGrid.emptyG (rows cols : Nat) : GoodGrid rows cols (makeGrid rows cols) [] := by
  refine ⟨?_, ?_, ?_, ?_, ?_, ?_, ?_, ?_⟩
  · exact List.length_replicate ..
  · intro row hrow
    rw [List.eq_of_mem_replicate hrow]
    exact List.length_replicate ..
  · intro e he
    exact absurd he (List.not_mem_nil e)
  · intro r c ch h
    rw [gridGet_makeGrid] at h
    exact Option.noConfusion h
  · intro e he
    exact absurd he (List.not_mem_nil e)
  · intro i h0 hl
    simp at hl
  · intro i hl
    simp at hl
  · intro i hl
    simp at hl

theorem GoodGrid.seed {rows cols : Nat} {w : WordDef} {dir : Direction} {sr sc : Int}
    (hcan : canPlace rows cols (makeGrid rows cols) w.answer dir sr sc = true) :
    GoodGrid rows cols (applyPlace (makeGrid rows cols) w.answer dir sr sc)
      [⟨(if dir = Direction.across then "A" else "D") ++ "1", dir, sr, sc,
        w.answer, w.clue⟩] := by
  have hb := canPlace_bounds hcan
  have hlen0 : (makeGrid rows cols).length = rows := List.length_replicate ..
  have hrow0 : ∀ row ∈ makeGrid rows cols, row.length = cols := fun row hrow => by
    rw [List.eq_of_mem_replicate hrow]
    exact List.length_replicate ..
  refine ⟨?_, ?_, ?_, ?_, ?_, ?_, ?_, ?_⟩
  · rw [applyPlace_eq_placePrefix, length_placePrefix, hlen0]
  · rw [applyPlace_eq_placePrefix]
    exact shapeRow_placePrefix hrow0 _ _ _ _ _
  · intro e he i hi
    simp only [List.mem_singleton] at he
    subst he
    exact gridGet_applyPlace_hit hlen0 hrow0 hb hi
  · intro r c ch hch
    by_cases hcell : ∃ j, j < w.answer.length ∧ wcell dir sr sc j = (r, c)
    · obtain ⟨j, hj, hjc⟩ := hcell
      have h1 : (wcell dir sr sc j).1 = r := by rw [hjc]
      have h2 : (wcell dir sr sc j).2 = c := by rw [hjc]
      have hval : gridGet (applyPlace (makeGrid rows cols) w.answer dir sr sc) r c
          = some (w.answer.getD j default) := by
        rw [← h1, ← h2]
        exact gridGet_applyPlace_hit hlen0 hrow0 hb hj
      rw [hval] at hch
      exact ⟨_, List.mem_singleton_self _, j, hj, hjc, Option.some.inj hch⟩
    · have hmiss : ∀ j, j < w.answer.length → wcell dir sr sc j ≠ (r, c) :=
        fun j hj heq => hcell ⟨j, hj, heq⟩
      rw [gridGet_applyPlace_miss hmiss, gridGet_makeGrid] at hch
      exact Option.noConfusion hch
  · intro e he i hi
    simp only [List.mem_singleton] at he
    subst he
    exact hb i hi
  · intro i h0 hl
    simp at hl
    omega
  · intro i hl
    simp at hl
    subst hl
    refine ⟨?_, ?_, ?_⟩
    · rintro ⟨e, he, -⟩
      exact List.not_mem_nil e he
    · rintro ⟨e, he, -⟩
      exact List.not_mem_nil e he
    · intro k hk hnc
      constructor
      · rintro ⟨e, he, -⟩
        exact List.not_mem_nil e he
      · rintro ⟨e, he, -⟩
        exact List.not_mem_nil e he
  · intro i hl
    simp at hl
    subst hl
    rw [idFor_singleton]
    rfl

theorem GoodGrid.place {rows cols : Nat} {g : Grid} {entries : List Entry}
    (hG : GoodGrid rows cols g entries) {w : WordDef} {dir : Direction} {sr sc : Int}
    (hcan : canPlace rows cols g w.answer dir sr sc = true)
    (hov : 0 < countOverlaps g w.answer dir sr sc) {name : String}
    (hname : name = (if dir = Direction.across then "A" else "D")
        ++ Nat.repr (countDir dir entries + 1)) :
    GoodGrid rows cols (applyPlace g w.answer dir sr sc)
      (entries ++ [⟨name, dir, sr, sc, w.answer, w.clue⟩]) := by
  have hb := canPlace_bounds hcan
  have hm := canPlace_matches hcan
  have hp := canPlace_perp hcan
  have hlen' : (applyPlace g w.answer dir sr sc).length = rows := by
    rw [applyPlace_eq_placePrefix, length_placePrefix, hG.shapeLen]
  have hrow' : ∀ row ∈ applyPlace g w.answer dir sr sc, row.length = cols := by
    rw [applyPlace_eq_placePrefix]
    exact shapeRow_placePrefix hG.shapeRow _ _ _ _ _
  have hhit : ∀ j, j < w.answer.length →
      gridGet (applyPlace g w.answer dir sr sc) (wcell dir sr sc j).1 (wcell dir sr sc j).2
        = some (w.answer.getD j default) :=
    fun j hj => gridGet_applyPlace_hit hG.shapeLen hG.shapeRow hb hj
  refine ⟨hlen', hrow', ?_, ?_, ?_, ?_, ?_, ?_⟩
  · intro e he i hi
    rcases List.mem_append.mp he with he | he
    · by_cases hcell : ∃ j, j < w.answer.length ∧ wcell dir sr sc j = ecell e i
      · obtain ⟨j, hj, hjc⟩ := hcell
        have h1 : (wcell dir sr sc j).1 = (ecell e i).1 := by rw [hjc]
        have h2 : (wcell dir sr sc j).2 = (ecell e i).2 := by rw [hjc]
        have hold : gridGet g (wcell dir sr sc j).1 (wcell dir sr sc j).2
            = some (eletter e i) := by
          rw [h1, h2]
          exact hG.reprA e he i hi
        have hlet : eletter e i = w.answer.getD j default := hm j hj _ hold
        rw [← h1, ← h2, hhit j hj, hlet]
      · have hmiss : ∀ j, j < w.answer.length →
            wcell dir sr sc j ≠ ((ecell e i).1, (ecell e i).2) :=
          fun j hj heq => hcell ⟨j, hj, heq⟩
        rw [gridGet_applyPlace_miss hmiss]
        exact hG.reprA e he i hi
    · simp only [List.mem_singleton] at he
      subst he
      exact hhit i hi
  · intro r c ch hch
    by_cases hcell : ∃ j, j < w.answer.length ∧ wcell dir sr sc j = (r, c)
    · obtain ⟨j, hj, hjc⟩ := hcell
      have h1 : (wcell dir sr sc j).1 = r := by rw [hjc]
      have h2 : (wcell dir sr sc j).2 = c := by rw [hjc]
      rw [← h1, ← h2, hhit j hj] at hch
      exact ⟨_, List.mem_append_right _ (List.mem_singleton_self _), j, hj, hjc,
        Option.some.inj hch⟩
    · have hmiss : ∀ j, j < w.answer.length → wcell dir sr sc j ≠ (r, c) :=
        fun j hj heq => hcell ⟨j, hj, heq⟩
      rw [gridGet_applyPlace_miss hmiss] at hch
      obtain ⟨e, he, i, hi, hc1, hc2⟩ := hG.reprB r c ch hch
      exact ⟨e, List.mem_append_left _ he, i, hi, hc1, hc2⟩
  · intro e he i hi
    rcases List.mem_append.mp he with he | he
    · exact hG.bounds e he i hi
    · simp only [List.mem_singleton] at he
      subst he
      exact hb i hi
  · intro i h0 hl
    rw [List.length_append, List.length_singleton] at hl
    by_cases hi : i < entries.length
    · exact CrossAt_append_left hi (hG.crossing i h0 hi)
    · have hieq : i = entries.length := by omega
      subst hieq
      obtain ⟨k, hk, ch, hch⟩ := countOverlaps_pos hov
      have hchv : ch = w.answer.getD k default := hm k hk ch hch
      obtain ⟨e, he, m, hm', hcell, hlet⟩ := hG.reprB _ _ _ hch
      obtain ⟨j, hjl, hje⟩ := List.mem_iff_getElem.mp he
      have hgetD : entries.getD j default = e := by
        rw [List.getD_eq_getElem?_getD, List.getElem?_eq_getElem hjl, Option.getD_some, hje]
      refine ⟨j, hjl, k, ?_, m, ?_, ?_, ?_⟩
      · rw [getD_append_self]
        exact hk
      · rw [getD_append_left' hjl, hgetD]
        exact hm'
      · rw [getD_append_self, getD_append_left' hjl, hgetD]
        exact hcell.symm
      · rw [getD_append_self, getD_append_left' hjl, hgetD]
        rw [hlet]
        exact hchv.symm
  · intro i hl
    rw [List.length_append, List.length_singleton] at hl
    by_cases hi : i < entries.length
    · rw [take_append_le (Nat.le_of_lt hi), getD_append_left' hi]
      exact hG.adjacency i hi
    · have hieq : i = entries.length := by omega
      subst hieq
      rw [getD_append_self, List.take_left]
      refine ⟨?_, ?_, ?_⟩
      · exact not_coveredBy_of_freeOrOut hG (canPlace_edgeBefore hcan)
      · exact not_coveredBy_of_freeOrOut hG (canPlace_edgeAfter hcan)
      · intro k hk hnc
        have hnone : gridGet g (wcell dir sr sc k).1 (wcell dir sr sc k).2 = none := by
          cases hopt : gridGet g (wcell dir sr sc k).1 (wcell dir sr sc k).2 with
          | none => rfl
          | some ch =>
            obtain ⟨e, he, m, hm', hcell, -⟩ := hG.reprB _ _ _ hopt
            exact absurd ⟨e, he, m, hm', hcell⟩ hnc
        obtain ⟨hp1, hp2⟩ := hp k hk hnone
        exact ⟨not_coveredBy_of_freeOrOut hG hp1, not_coveredBy_of_freeOrOut hG hp2⟩
  · intro i hl
    rw [List.length_append, List.length_singleton] at hl
    by_cases hi : i < entries.length
    · rw [getD_append_left' hi]
      unfold idFor
      rw [getD_append_left' hi, take_append_le (by omega)]
      have hold := hG.idsOK i hi
      unfold idFor at hold
      exact hold
    · have hieq : i = entries.length := by omega
      subst hieq
      rw [getD_append_self]
      unfold idFor
      rw [getD_append_self]
      have htake : (entries ++ [(⟨name, dir, sr, sc, w.answer, w.clue⟩ : Entry)]).take
          (entries.length + 1) = entries ++ [(⟨name, dir, sr, sc, w.answer, w.clue⟩ : Entry)] := by
        apply List.take_of_length_le
        rw [List.length_append, List.length_singleton]
      rw [htake, countDir_append, countDir_singleton_self]
      subst hname
      rfl

theorem countDir_single (d : Direction) (e : Entry) :
    countDir d [e] = if e.direction = d then 1 else 0 := by
  unfold countDir
  simp [List.countP_cons]

/-! ### Soundness of the backtracking search -/

theorem backtrackF_sound {rows cols : Nat} {pick : Grid → Nat → List Cand → List Cand}
    {shuffled : List WordDef} {directions : List Direction} :
    ∀ (fuel : Nat) (g : Grid) (idx : Nat) (entries : List Entry) (ac dc : Nat)
      (out : List Entry),
    backtrackF rows cols pick fuel g idx shuffled directions entries ac dc = some out →
    GoodGrid rows cols g entries →
    ac = countDir Direction.across entries →
    dc = countDir Direction.down entries →
    ∃ extra gfin, out = entries ++ extra ∧
      extra.map Entry.answer = ((shuffled.drop idx).take fuel).map WordDef.answer ∧
      GoodGrid rows cols gfin out := by
  intro fuel
  induction fuel with
  | zero =>
    intro g idx entries ac dc out hbt hG hac hdc
    simp only [backtrackF] at hbt
    obtain rfl : entries = out := Option.some.inj hbt
    exact ⟨[], g, by simp, by simp, hG⟩
  | succ fuel ih =>
    intro g idx entries ac dc out hbt hG hac hdc
    simp only [backtrackF] at hbt
    set wv := shuffled.getD idx default with hwv
    set dv := directions.getD idx default with hdv
    by_cases hemp :
        (pick g idx (getCandidatesByCrossing rows cols g wv.answer dv)).isEmpty = true
    · rw [if_pos hemp] at hbt
      exact Option.noConfusion hbt
    · rw [if_neg hemp] at hbt
      obtain ⟨cand, hcmem, hcand⟩ := List.exists_of_findSome?_eq_some hbt
      by_cases hok : (canPlace rows cols g wv.answer dv cand.1 cand.2
          && decide (0 < countOverlaps g wv.answer dv cand.1 cand.2)) = true
      · rw [if_pos hok] at hcand
        rw [Bool.and_eq_true, decide_eq_true_eq] at hok
        obtain ⟨hcan, hov⟩ := hok
        have hidx : idx < shuffled.length := by
          by_contra hge
          have hdef : wv = default := by
            rw [hwv, List.getD_eq_getElem?_getD, List.getElem?_eq_none (by omega)]
            rfl
          rw [hdef] at hov
          have h0 : countOverlaps g (default : WordDef).answer dv cand.1 cand.2 = 0 := rfl
          omega
        have hwidx : wv = shuffled[idx] := by
          rw [hwv, List.getD_eq_getElem?_getD, List.getElem?_eq_getElem hidx]
          rfl
        clear_value wv dv
        cases dv with
        | across =>
          have hcand' : backtrackF rows cols pick fuel
              (applyPlace g wv.answer Direction.across cand.1 cand.2) (idx + 1) shuffled
              directions (entries ++ [(⟨"A" ++ Nat.repr (ac + 1), Direction.across,
                cand.1, cand.2, wv.answer, wv.clue⟩ : Entry)]) (ac + 1) dc = some out := hcand
          obtain ⟨extra, gfin, hout, hans, hGf⟩ :=
            ih _ _ _ _ _ _ hcand'
              (hG.place hcan hov (by rw [hac]; rfl))
              (by rw [countDir_append, hac, countDir_single]; simp)
              (by rw [countDir_append, hdc, countDir_single]; simp)
          refine ⟨_ :: extra, gfin, by rw [hout, List.append_assoc]; rfl, ?_, hGf⟩
          rw [List.drop_eq_getElem_cons hidx, List.take_succ_cons, List.map_cons,
            List.map_cons, hans, ← hwidx]
        | down =>
          have hcand' : backtrackF rows cols pick fuel
              (applyPlace g wv.answer Direction.down cand.1 cand.2) (idx + 1) shuffled
              directions (entries ++ [(⟨"D" ++ Nat.repr (dc + 1), Direction.down,
                cand.1, cand.2, wv.answer, wv.clue⟩ : Entry)]) ac (dc + 1) = some out := hcand
          obtain ⟨extra, gfin, hout, hans, hGf⟩ :=
            ih _ _ _ _ _ _ hcand'
              (hG.place hcan hov (by rw [hdc]; rfl))
              (by rw [countDir_append, hac, countDir_single]; simp)
              (by rw [countDir_append, hdc, countDir_single]; simp)
          refine ⟨_ :: extra, gfin, by rw [hout, List.append_assoc]; rfl, ?_, hGf⟩
          rw [List.drop_eq_getElem_cons hidx, List.take_succ_cons, List.map_cons,
            List.map_cons, hans, ← hwidx]
      · rw [if_neg hok] at hcand
        exact Option.noConfusion hcand

theorem answers_full {shuffled : List WordDef} (h : shuffled ≠ []) :
    (shuffled.headD default).answer
        :: ((shuffled.drop 1).take (shuffled.length - 1)).map WordDef.answer
      = shuffled.map WordDef.answer := by
  cases shuffled with
  | nil => exact absurd rfl h
  | cons a t => simp

theorem seedAttempt_sound {rows cols : Nat} {pick : Grid → Nat → List Cand → List Cand}
    {words shuffled : List WordDef} {directions : List Direction} {p : Int × Int}
    {cw : Crossword}
    (h : seedAttempt rows cols pick words shuffled directions p = some cw) :
    cw.rows = rows ∧ cw.cols = cols ∧ cw.entries.length = words.length ∧
    (∃ gfin, GoodGrid rows cols gfin cw.entries) ∧
    cw.entries.map Entry.answer = (shuffled.headD default).answer
      :: ((shuffled.drop 1).take (shuffled.length - 1)).map WordDef.answer := by
  simp only [seedAttempt] at h
  by_cases hcp : canPlace rows cols (makeGrid rows cols) (shuffled.headD default).answer
      (directions.headD default) (seedStart rows cols shuffled directions p).1
      (seedStart rows cols shuffled directions p).2 = true
  · rw [if_pos hcp] at h
    cases hbt : backtrack rows cols pick
        (applyPlace (makeGrid rows cols) (shuffled.headD default).answer
          (directions.headD default) (seedStart rows cols shuffled directions p).1
          (seedStart rows cols shuffled directions p).2) 1 shuffled directions
        [⟨(if directions.headD default = Direction.across then "A" else "D") ++ "1",
          directions.headD default, (seedStart rows cols shuffled directions p).1,
          (seedStart rows cols shuffled directions p).2, (shuffled.headD default).answer,
          (shuffled.headD default).clue⟩]
        (if directions.headD default = Direction.across then 1 else 0)
        (if directions.headD default = Direction.down then 1 else 0) with
    | none =>
      rw [hbt] at h
      dsimp only at h
      exact Option.noConfusion h
    | some res =>
      rw [hbt] at h
      dsimp only at h
      by_cases hlen : res.length = words.length
      · rw [if_pos hlen] at h
        have hcw := Option.some.inj h
        subst hcw
        unfold backtrack at hbt
        obtain ⟨extra, gfin, hout, hans, hGf⟩ :=
          backtrackF_sound _ _ _ _ _ _ _ hbt (GoodGrid.seed hcp)
            (by rw [countDir_single]) (by rw [countDir_single])
        refine ⟨rfl, rfl, hlen, ⟨gfin, hGf⟩, ?_⟩
        rw [hout]
        simp only [List.map_append, List.map_cons, List.map_nil, hans]
        rfl
      · rw [if_neg hlen] at h
        exact Option.noConfusion h
  · rw [if_neg hcp] at h
    exact Option.noConfusion h

theorem restartAttempt_sound {pick : Nat → Grid → Nat → List Cand → List Cand}
    {permW : Nat → List WordDef → List WordDef} {words : List WordDef}
    {rows cols restart : Nat} {cw : Crossword}
    (h : restartAttempt pick permW words rows cols restart = some cw) :
    cw.rows = rows ∧ cw.cols = cols ∧ cw.entries.length = words.length ∧
    (∃ gfin, GoodGrid rows cols gfin cw.entries) ∧
    (mkShuffled permW restart words ≠ [] →
      cw.entries.map Entry.answer = (mkShuffled permW restart words).map WordDef.answer) := by
  unfold restartAttempt at h
  obtain ⟨p, hpmem, hp⟩ := List.exists_of_findSome?_eq_some h
  obtain ⟨h1, h2, h3, h4, h5⟩ := seedAttempt_sound hp
  refine ⟨h1, h2, h3, h4, fun hne => ?_⟩
  rw [h5, answers_full hne]

theorem generateCrossword_good (pick : Nat → Grid → Nat → List Cand → List Cand)
    (permW : Nat → List WordDef → List WordDef) (words : List WordDef) (rows cols : Nat) :
    (generateCrossword pick permW words rows cols).rows = rows ∧
    (generateCrossword pick permW words rows cols).cols = cols ∧
    ∃ gfin, GoodGrid rows cols gfin (generateCrossword pick permW words rows cols).entries := by
  unfold generateCrossword
  by_cases hw : words.length = 0
  · rw [if_pos hw]
    exact ⟨rfl, rfl, makeGrid rows cols, GoodGrid.emptyG rows cols⟩
  · rw [if_neg hw]
    cases hf : (List.range MAX_RESTARTS).findSome?
        (restartAttempt pick permW words rows cols) with
    | none =>
      exact ⟨rfl, rfl, makeGrid rows cols, GoodGrid.emptyG rows cols⟩
    | some cw =>
      obtain ⟨r, hrmem, hr⟩ := List.exists_of_findSome?_eq_some hf
      obtain ⟨h1, h2, h3, h4, h5⟩ := restartAttempt_sound hr
      exact ⟨h1, h2, h4⟩

theorem generateCrossword_coverage (pick : Nat → Grid → Nat → List Cand → List Cand)
    (permW : Nat → List WordDef → List WordDef) (words : List WordDef) (rows cols : Nat)
    (hperm : ∀ r ws, (permW r ws).Perm ws) :
    (generateCrossword pick permW words rows cols).entries = [] ∨
    (((generateCrossword pick permW words rows cols).entries.map Entry.answer).Perm
        (words.map fun w => w.answer.map Char.toUpper) ∧
      (generateCrossword pick permW words rows cols).entries.length = words.length) := by
  unfold generateCrossword
  by_cases hw : words.length = 0
  · rw [if_pos hw]
    exact Or.inl rfl
  · rw [if_neg hw]
    cases hf : (List.range MAX_RESTARTS).findSome?
        (restartAttempt pick permW words rows cols) with
    | none => exact Or.inl rfl
    | some cw =>
      obtain ⟨r, hrmem, hr⟩ := List.exists_of_findSome?_eq_some hf
      obtain ⟨h1, h2, h3, h4, h5⟩ := restartAttempt_sound hr
      right
      simp only [Option.getD_some]
      have hperm' : (permW r words).Perm words := hperm r words
      have hlenp : (mkShuffled permW r words).length = words.length := by
        unfold mkShuffled
        rw [List.length_map, hperm'.length_eq]
      have hne : mkShuffled permW r words ≠ [] := by
        intro hnil
        apply hw
        rw [← hlenp, hnil]
        rfl
      refine ⟨?_, h3⟩
      rw [h5 hne]
      unfold mkShuffled
      rw [List.map_map]
      exact hperm'.map _

theorem generateCrossword_failure_iff (pick : Nat → Grid → Nat → List Cand → List Cand)
    (permW : Nat → List WordDef → List WordDef) (words : List WordDef) (rows cols : Nat)
    (hw : words ≠ []) :
    (generateCrossword pick permW words rows cols).entries = [] ↔
    ∀ r, r < MAX_RESTARTS → restartAttempt pick permW words rows cols r = none := by
  have hlen0 : ¬(words.length = 0) := fun h => hw (List.length_eq_zero.mp h)
  unfold generateCrossword
  rw [if_neg hlen0]
  cases hf : (List.range MAX_RESTARTS).findSome?
      (restartAttempt pick permW words rows cols) with
  | none =>
    simp only [Option.getD_none]
    constructor
    · intro _ r hr
      exact (List.findSome?_eq_none_iff.mp hf) r (List.mem_range.mpr hr)
    · intro _
      trivial
  | some cw =>
    simp only [Option.getD_some]
    obtain ⟨r, hrmem, hr⟩ := List.exists_of_findSome?_eq_some hf
    obtain ⟨-, -, h3, -, -⟩ := restartAttempt_sound hr
    constructor
    · intro hnil
      rw [hnil] at h3
      exact absurd (List.length_eq_zero.mp h3.symm) hw
    · intro hall
      rw [hall r (List.mem_range.mp hrmem)] at hr
      exact Option.noConfusion hr

/-! ### Selection driver lemmas -/

theorem PALABRAS_pos (d : Difficulty) : 0 < PALABRAS_POR_DIFICULTAD d := by
  cases d <;> decide

theorem selectionAttempt_some {gen : Nat → List WordDef → Nat → Nat → Crossword}
    {permU : Nat → List WordDef → List WordDef} {words : List WordDef} {d : Difficulty}
    {a : Nat} {r : CrosswordBuildResult} (h : selectionAttempt gen permU words d a = some r) :
    r.error = none ∧ r.usableWords = usableOf words d ∧ r.omittedWords = omittedOf words d ∧
    r.requestedWords = PALABRAS_POR_DIFICULTAD d ∧
    r.selectedWords = (permU a (usableOf words d)).take (PALABRAS_POR_DIFICULTAD d) ∧
    r.crossword = gen a ((permU a (usableOf words d)).take (PALABRAS_POR_DIFICULTAD d))
      (getBoardDimensionsForDifficulty d).1 (getBoardDimensionsForDifficulty d).2 ∧
    r.crossword.entries.length = PALABRAS_POR_DIFICULTAD d := by
  simp only [selectionAttempt] at h
  by_cases hc : (gen a ((permU a (usableOf words d)).take (PALABRAS_POR_DIFICULTAD d))
      (getBoardDimensionsForDifficulty d).1
      (getBoardDimensionsForDifficulty d).2).entries.length = PALABRAS_POR_DIFICULTAD d
  · rw [if_pos hc] at h
    have := Option.some.inj h
    subst this
    exact ⟨rfl, rfl, rfl, rfl, rfl, rfl, hc⟩
  · rw [if_neg hc] at h
    exact Option.noConfusion h

theorem selectionAttempt_none_iff {gen : Nat → List WordDef → Nat → Nat → Crossword}
    {permU : Nat → List WordDef → List WordDef} {words : List WordDef} {d : Difficulty}
    {a : Nat} :
    selectionAttempt gen permU words d a = none ↔
    (gen a ((permU a (usableOf words d)).take (PALABRAS_POR_DIFICULTAD d))
      (getBoardDimensionsForDifficulty d).1
      (getBoardDimensionsForDifficulty d).2).entries.length ≠ PALABRAS_POR_DIFICULTAD d := by
  simp only [selectionAttempt]
  by_cases hc : (gen a ((permU a (usableOf words d)).take (PALABRAS_POR_DIFICULTAD d))
      (getBoardDimensionsForDifficulty d).1
      (getBoardDimensionsForDifficulty d).2).entries.length = PALABRAS_POR_DIFICULTAD d
  · rw [if_pos hc]
    simp [hc]
  · rw [if_neg hc]
    simp [hc]

theorem buildWith_insufficient {gen : Nat → List WordDef → Nat → Nat → Crossword}
    {permU : Nat → List WordDef → List WordDef} {words : List WordDef} {d : Difficulty}
    (h : (usableOf words d).length < PALABRAS_POR_DIFICULTAD d) :
    buildWith gen permU words d =
      ⟨⟨(getBoardDimensionsForDifficulty d).1, (getBoardDimensionsForDifficulty d).2, []⟩,
        [], usableOf words d, omittedOf words d, PALABRAS_POR_DIFICULTAD d,
        some (insufficientWordsMsg d (PALABRAS_POR_DIFICULTAD d))⟩ := by
  simp only [buildWith]
  rw [if_pos h]

theorem buildWith_fields (gen : Nat → List WordDef → Nat → Nat → Crossword)
    (permU : Nat → List WordDef → List WordDef) (words : List WordDef) (d : Difficulty) :
    (buildWith gen permU words d).usableWords = usableOf words d ∧
    (buildWith gen permU words d).omittedWords = omittedOf words d ∧
    (buildWith gen permU words d).requestedWords = PALABRAS_POR_DIFICULTAD d := by
  simp only [buildWith]
  by_cases h : (usableOf words d).length < PALABRAS_POR_DIFICULTAD d
  · rw [if_pos h]
    exact ⟨rfl, rfl, rfl⟩
  · rw [if_neg h]
    cases hf : (List.range MAX_SELECTION_ATTEMPTS).findSome?
        (selectionAttempt gen permU words d) with
    | none => exact ⟨rfl, rfl, rfl⟩
    | some r =>
      obtain ⟨a, hmem, ha⟩ := List.exists_of_findSome?_eq_some hf
      obtain ⟨-, h1, h2, h3, -, -, -⟩ := selectionAttempt_some ha
      exact ⟨h1, h2, h3⟩

theorem buildWith_couldNot_iff {gen : Nat → List WordDef → Nat → Nat → Crossword}
    {permU : Nat → List WordDef → List WordDef} {words : List WordDef} {d : Difficulty}
    (h : PALABRAS_POR_DIFICULTAD d ≤ (usableOf words d).length) :
    (buildWith gen permU words d).error = some (couldNotBuildMsg d (PALABRAS_POR_DIFICULTAD d))
      ↔ ∀ a, a < MAX_SELECTION_ATTEMPTS → selectionAttempt gen permU words d a = none := by
  simp only [buildWith]
  rw [if_neg (Nat.not_lt.mpr h)]
  cases hf : (List.range MAX_SELECTION_ATTEMPTS).findSome?
      (selectionAttempt gen permU words d) with
  | none =>
    constructor
    · intro _ a ha
      exact (List.findSome?_eq_none_iff.mp hf) a (List.mem_range.mpr ha)
    · intro _
      rfl
  | some r =>
    obtain ⟨a, hmem, ha⟩ := List.exists_of_findSome?_eq_some hf
    obtain ⟨herr, -, -, -, -, -, -⟩ := selectionAttempt_some ha
    constructor
    · intro hmsg
      rw [herr] at hmsg
      exact Option.noConfusion hmsg
    · intro hall
      rw [hall a (List.mem_range.mp hmem)] at ha
      exact Option.noConfusion ha

theorem buildWith_success {gen : Nat → List WordDef → Nat → Nat → Crossword}
    {permU : Nat → List WordDef → List WordDef} {words : List WordDef} {d : Difficulty}
    (h : (buildWith gen permU words d).error = none) :
    ∃ a, a < MAX_SELECTION_ATTEMPTS ∧
      selectionAttempt gen permU words d a = some (buildWith gen permU words d) := by
  revert h
  simp only [buildWith]
  by_cases hins : (usableOf words d).length < PALABRAS_POR_DIFICULTAD d
  · rw [if_pos hins]
    intro h
    exact Option.noConfusion h
  · rw [if_neg hins]
    cases hf : (List.range MAX_SELECTION_ATTEMPTS).findSome?
        (selectionAttempt gen permU words d) with
    | none =>
      intro h
      exact Option.noConfusion h
    | some r =>
      intro _
      obtain ⟨a, hmem, ha⟩ := List.exists_of_findSome?_eq_some hf
      exact ⟨a, List.mem_range.mp hmem, ha⟩

theorem buildWith_coverage {pickB : Nat → Nat → Grid → Nat → List Cand → List Cand}
    {permB : Nat → Nat → List WordDef → List WordDef}
    {permU : Nat → List WordDef → List WordDef} {pool : List WordDef} {d : Difficulty}
    (hpermB : ∀ a r ws, (permB a r ws).Perm ws)
    (h : (buildCrosswordForDifficulty pickB permB permU pool d).error = none) :
    (((buildCrosswordForDifficulty pickB permB permU pool d).crossword.entries.map
        Entry.answer).Perm
      ((buildCrosswordForDifficulty pickB permB permU pool d).selectedWords.map
        fun w => w.answer.map Char.toUpper)) ∧
    (buildCrosswordForDifficulty pickB permB permU pool d).crossword.entries.length
      = (buildCrosswordForDifficulty pickB permB permU pool d).requestedWords := by
  unfold buildCrosswordForDifficulty at h ⊢
  obtain ⟨a, ha300, hsa⟩ := buildWith_success h
  obtain ⟨herr, hus, hom, hreq, hsel, hcw, hlen⟩ := selectionAttempt_some hsa
  rcases generateCrossword_coverage (pickB a) (permB a)
      ((permU a (usableOf pool d)).take (PALABRAS_POR_DIFICULTAD d))
      (getBoardDimensionsForDifficulty d).1 (getBoardDimensionsForDifficulty d).2
      (hpermB a) with hnil | ⟨hperm, -⟩
  · exfalso
    rw [hcw, hnil] at hlen
    have := PALABRAS_pos d
    simp at hlen
    omega
  · refine ⟨?_, by rw [hlen, hreq]⟩
    rw [hcw, hsel]
    exact hperm

/-! ### Concrete layouts used by counterexamples and witnesses -/

/-- The uppercased shuffled list of restart 0 on `wordsCX` (identity shuffle). -/
def shuffledCX : List WordDef := mkShuffled idPerm 0 wordsCX

/-- The alternating direction list for `shuffledCX`. -/
def directionsCX : List Direction := mkDirections shuffledCX.length

/-- The seed entry of `cwCX`. -/
def eCX : Entry := ⟨"A1", Direction.across, 0, 1, ['A', 'B', 'C'], "c1"⟩

/-- A three-word pool, all of length at most 9 (too few for the basic tier). -/
def pool3 : List WordDef :=
  [⟨['S', 'O', 'L'], "p1"⟩, ⟨['L', 'U', 'N', 'A'], "p2"⟩, ⟨['M', 'A', 'R'], "p3"⟩]

/-- A placement engine stub returning the failure layout, for witnesses
about engine-independence. -/
def gen0 : Nat → List WordDef → Nat → Nat → Crossword :=
  fun _ _ rows cols => ⟨rows, cols, []⟩

/-- Identity selection-shuffle oracle. -/
def permU0 : Nat → List WordDef → List WordDef := fun _ ws => ws

/-! ### The claims -/

/-- C6: for every layout returned by `generateCrossword` and every entry in
it, every letter cell of the entry (from its start cell extending
`answer.length` cells in its direction) lies within `[0,rows) x [0,cols)`. -/
theorem bounds_claim (pick : Nat → Grid → Nat → List Cand → List Cand)
    (permW : Nat → List WordDef → List WordDef) (words : List WordDef) (rows cols : Nat) :
    ∀ e ∈ (generateCrossword pick permW words rows cols).entries,
      ∀ i, i < e.answer.length →
        0 ≤ (ecell e i).1 ∧ (ecell e i).1 < (rows : Int) ∧
        0 ≤ (ecell e i).2 ∧ (ecell e i).2 < (cols : Int) := by
  intro e he i hi
  obtain ⟨h1, h2, gfin, hG⟩ := generateCrossword_good pick permW words rows cols
  exact hG.bounds e he i hi

set_option maxRecDepth 100000 in
/-- Witness for C6 at the concrete two-word layout `cwCX`. -/
theorem bounds_claim_witness :
    eCX ∈ cwCX.entries ∧ 0 < eCX.answer.length ∧
    (0 ≤ (ecell eCX 0).1 ∧ (ecell eCX 0).1 < (2 : Int) ∧
      0 ≤ (ecell eCX 0).2 ∧ (ecell eCX 0).2 < (5 : Int)) :=
  ⟨by decide, by decide, bounds_claim idPick idPerm wordsCX 2 5 eCX (by decide) 0 (by decide)⟩

/-- C4: in every layout returned by `generateCrossword`, every non-seed
entry (every entry after the first) shares at least one letter cell, with
equal letters, with some entry placed earlier in the same solution. -/
theorem crossing_claim (pick : Nat → Grid → Nat → List Cand → List Cand)
    (permW : Nat → List WordDef → List WordDef) (words : List WordDef) (rows cols : Nat) :
    ∀ i, 0 < i → i < (generateCrossword pick permW words rows cols).entries.length →
      CrossAt (generateCrossword pick permW words rows cols).entries i := by
  intro i h0 hl
  obtain ⟨h1, h2, gfin, hG⟩ := generateCrossword_good pick permW words rows cols
  exact hG.crossing i h0 hl

set_option maxRecDepth 100000 in
/-- Witness for C4: the second entry of `cwCX` crosses the seed. -/
theorem crossing_claim_witness :
    0 < 1 ∧ 1 < cwCX.entries.length ∧ CrossAt cwCX.entries 1 :=
  ⟨Nat.zero_lt_one, by decide,
    crossing_claim idPick idPerm wordsCX 2 5 1 Nat.zero_lt_one (by decide)⟩

set_option maxRecDepth 100000 in
/-- C5 counterexample: in the successful layout `cwCX`, the seed's letter
cell `(0,2)` is shared with no earlier entry, yet its perpendicular
neighbor `(1,2)` holds a letter of the other entry `BZ`; the claim's
final-layout adjacency property is therefore false. -/
theorem adjacency_final_counterexample :
    cwCX.entries.length = 2 ∧ claimAdjacencyFinal cwCX = false :=
  ⟨by decide, by decide⟩

/-- C5 (amended): the adjacency guarantees hold at placement time: for
every entry, the cells immediately before and after its span hold no
letter of any entry placed earlier, and every letter cell not shared with
an earlier entry has both perpendicular neighbors free of letters of
earlier entries. -/
theorem adjacency_placement_claim (pick : Nat → Grid → Nat → List Cand → List Cand)
    (permW : Nat → List WordDef → List WordDef) (words : List WordDef) (rows cols : Nat) :
    ∀ i, i < (generateCrossword pick permW words rows cols).entries.length →
      AdjOK ((generateCrossword pick permW words rows cols).entries.take i)
        ((generateCrossword pick permW words rows cols).entries.getD i default) := by
  intro i hl
  obtain ⟨h1, h2, gfin, hG⟩ := generateCrossword_good pick permW words rows cols
  exact hG.adjacency i hl

set_option maxRecDepth 100000 in
/-- Witness for the amended C5 at the second entry of `cwCX`. -/
theorem adjacency_placement_claim_witness :
    1 < cwCX.entries.length ∧ AdjOK (cwCX.entries.take 1) (cwCX.entries.getD 1 default) :=
  ⟨by decide, adjacency_placement_claim idPick idPerm wordsCX 2 5 1 (by decide)⟩

set_option maxRecDepth 100000 in
/-- C2 counterexample: the generator's actual identifiers on `cwCX` are
`A1` and `D1` (per-direction placement-order counters), while the shared
row-major scan numbering would give `A1` and `D2`; the claim's identifier
rule is therefore false on the code. -/
theorem ids_rowMajor_counterexample :
    cwCX.entries.map (fun e => e.id) = ["A1", "D1"] ∧
    cwCX.entries.map (fun e => specEntryId cwCX e) = ["A1", "D2"] ∧
    claimSharedNumbering cwCX = false :=
  ⟨by decide, by decide, by decide⟩

/-- C2 (amended): every entry's identifier is the direction letter (`A` or
`D`) followed by the rank of the entry among same-direction entries in
placement order (the per-direction counters of the backtracking code);
the identifier numeral is assigned during placement, not by the row-major
finalization scan. -/
theorem ids_placement_claim (pick : Nat → Grid → Nat → List Cand → List Cand)
    (permW : Nat → List WordDef → List WordDef) (words : List WordDef) (rows cols : Nat) :
    ∀ i, i < (generateCrossword pick permW words rows cols).entries.length →
      ((generateCrossword pick permW words rows cols).entries.getD i default).id
        = idFor (generateCrossword pick permW words rows cols).entries i := by
  intro i hl
  obtain ⟨h1, h2, gfin, hG⟩ := generateCrossword_good pick permW words rows cols
  exact hG.idsOK i hl

set_option maxRecDepth 100000 in
/-- Witness for the amended C2 at the second entry of `cwCX`. -/
theorem ids_placement_claim_witness :
    1 < cwCX.entries.length ∧ (cwCX.entries.getD 1 default).id = idFor cwCX.entries 1 :=
  ⟨by decide, ids_placement_claim idPick idPerm wordsCX 2 5 1 (by decide)⟩

set_option maxRecDepth 100000 in
/-- C3 counterexample: on `wordsCX` over a 2x5 board with identity oracles,
the very first offset combination `(0,0)` is legal for the seed, the
backtracking recursion from that accepted seed exhausts (the seed trial
returns nothing), and yet restart 0 is not abandoned: it returns the
layout `cwCX`, built from a later offset combination. -/
theorem seed_retry_counterexample :
    offsetPairs.headD (0, 0) = (0, 0) ∧
    canPlace 2 5 (makeGrid 2 5) (shuffledCX.headD default).answer
      (directionsCX.headD default)
      (seedStart 2 5 shuffledCX directionsCX (0, 0)).1
      (seedStart 2 5 shuffledCX directionsCX (0, 0)).2 = true ∧
    seedAttempt 2 5 (idPick 0) wordsCX shuffledCX directionsCX (0, 0) = none ∧
    restartAttempt idPick idPerm wordsCX 2 5 0 = some cwCX ∧
    cwCX.entries ≠ [] :=
  ⟨by decide, by decide, by decide, by decide, by decide⟩

/-- C3 (amended): within one restart the seed is tried at the 25 offset
combinations in row-major order; an illegal combination is skipped; the
restart returns the layout of the first combination whose seed placement
is legal and whose recursion completes all words; and the restart is
abandoned (trying the next restart's fresh permutation) exactly when every
one of the 25 combinations fails, either because its seed placement is
illegal or because its backtracking recursion exhausts. -/
theorem restart_structure_claim (pick : Nat → Grid → Nat → List Cand → List Cand)
    (permW : Nat → List WordDef → List WordDef) (words : List WordDef)
    (rows cols restart : Nat) :
    (restartAttempt pick permW words rows cols restart = none ↔
      ∀ p ∈ offsetPairs, seedAttempt rows cols (pick restart) words
        (mkShuffled permW restart words)
        (mkDirections (mkShuffled permW restart words).length) p = none) ∧
    (∀ cw, restartAttempt pick permW words rows cols restart = some cw →
      ∃ l1 p l2, offsetPairs = l1 ++ p :: l2 ∧
        (∀ q ∈ l1, seedAttempt rows cols (pick restart) words
          (mkShuffled permW restart words)
          (mkDirections (mkShuffled permW restart words).length) q = none) ∧
        seedAttempt rows cols (pick restart) words (mkShuffled permW restart words)
          (mkDirections (mkShuffled permW restart words).length) p = some cw) ∧
    (∀ p, canPlace rows cols (makeGrid rows cols)
        ((mkShuffled permW restart words).headD default).answer
        ((mkDirections (mkShuffled permW restart words).length).headD default)
        (seedStart rows cols (mkShuffled permW restart words)
          (mkDirections (mkShuffled permW restart words).length) p).1
        (seedStart rows cols (mkShuffled permW restart words)
          (mkDirections (mkShuffled permW restart words).length) p).2 = false →
      seedAttempt rows cols (pick restart) words (mkShuffled permW restart words)
        (mkDirections (mkShuffled permW restart words).length) p = none) := by
  refine ⟨?_, ?_, ?_⟩
  · unfold restartAttempt
    exact List.findSome?_eq_none_iff
  · intro cw h
    unfold restartAttempt at h
    obtain ⟨l1, p, l2, hsplit, hsome, hnone⟩ := List.findSome?_eq_some_iff.mp h
    exact ⟨l1, p, l2, hsplit, hnone, hsome⟩
  · intro p hcp
    simp only [seedAttempt]
    rw [if_neg (by rw [hcp]; exact Bool.false_ne_true)]

set_option maxRecDepth 100000 in
/-- Witness for the amended C3: restart 0 on `wordsCX` returns `cwCX` from
the first offset combination whose seed trial succeeds. -/
theorem restart_structure_claim_witness :
    ∃ l1 p l2, offsetPairs = l1 ++ p :: l2 ∧
      (∀ q ∈ l1, seedAttempt 2 5 (idPick 0) wordsCX shuffledCX directionsCX q = none) ∧
      seedAttempt 2 5 (idPick 0) wordsCX shuffledCX directionsCX p = some cwCX :=
  (restart_structure_claim idPick idPerm wordsCX 2 5 0).2.1 cwCX (by decide)

/-- C10: calling `generateCrossword` with an empty word list returns the
layout `(rows, cols, [])` immediately, with no restarts run and no
exception: the function is total on this input. -/
theorem empty_words_claim (pick : Nat → Grid → Nat → List Cand → List Cand)
    (permW : Nat → List WordDef → List WordDef) (rows cols : Nat) :
    generateCrossword pick permW ([] : List WordDef) rows cols = ⟨rows, cols, []⟩ := rfl

/-- C1: with the shuffle oracles producing permutations, every layout of
`generateCrossword` is either the failure layout (empty entries) or covers
the input word set exactly: the multiset of entry answers equals the
multiset of uppercased input answers and the entry count equals the word
count; the entry list is non-empty iff some restart succeeded; and a
successful `buildCrosswordForDifficulty` (error = none) covers its
selected words the same way, with entry count equal to the requested
count. -/
theorem coverage_claim :
    (∀ (pick : Nat → Grid → Nat → List Cand → List Cand)
       (permW : Nat → List WordDef → List WordDef) (words : List WordDef) (rows cols : Nat),
       (∀ r ws, (permW r ws).Perm ws) →
       (generateCrossword pick permW words rows cols).entries = [] ∨
       (((generateCrossword pick permW words rows cols).entries.map Entry.answer).Perm
           (words.map fun w => w.answer.map Char.toUpper) ∧
         (generateCrossword pick permW words rows cols).entries.length = words.length)) ∧
    (∀ (pick : Nat → Grid → Nat → List Cand → List Cand)
       (permW : Nat → List WordDef → List WordDef) (words : List WordDef) (rows cols : Nat),
       words ≠ [] →
       ((generateCrossword pick permW words rows cols).entries ≠ [] ↔
         ∃ r, r < MAX_RESTARTS ∧ restartAttempt pick permW words rows cols r ≠ none)) ∧
    (∀ (pickB : Nat → Nat → Grid → Nat → List Cand → List Cand)
       (permB : Nat → Nat → List WordDef → List WordDef)
       (permU : Nat → List WordDef → List WordDef) (pool : List WordDef) (d : Difficulty),
       (∀ a r ws, (permB a r ws).Perm ws) →
       (buildCrosswordForDifficulty pickB permB permU pool d).error = none →
       (((buildCrosswordForDifficulty pickB permB permU pool d).crossword.entries.map
           Entry.answer).Perm
         ((buildCrosswordForDifficulty pickB permB permU pool d).selectedWords.map
           fun w => w.answer.map Char.toUpper)) ∧
       (buildCrosswordForDifficulty pickB permB permU pool d).crossword.entries.length
         = (buildCrosswordForDifficulty pickB permB permU pool d).requestedWords) := by
  refine ⟨generateCrossword_coverage, ?_,
    fun pickB permB permU pool d h1 h2 => buildWith_coverage h1 h2⟩
  intro pick permW words rows cols hw
  have hiff := generateCrossword_failure_iff pick permW words rows cols hw
  constructor
  · intro hne
    by_contra hno
    push_neg at hno
    exact hne (hiff.mpr hno)
  · rintro ⟨r, hr, hne⟩ hnil
    exact hne (hiff.mp hnil r hr)

set_option maxRecDepth 100000 in
/-- Witness for C1 on the concrete two-word input. -/
theorem coverage_claim_witness :
    (generateCrossword idPick idPerm wordsCX 2 5).entries = [] ∨
    (((generateCrossword idPick idPerm wordsCX 2 5).entries.map Entry.answer).Perm
        (wordsCX.map fun w => w.answer.map Char.toUpper) ∧
      (generateCrossword idPick idPerm wordsCX 2 5).entries.length = wordsCX.length) :=
  coverage_claim.1 idPick idPerm wordsCX 2 5 (fun _ ws => List.Perm.refl ws)

/-- C7: when the usable pool is smaller than the tier's required count,
the build returns the insufficient-words record, whose error message
carries the tier and required count; the result does not depend on the
placement engine or selection shuffle at all, so the engine is never
invoked. -/
theorem insufficient_words_claim
    (pickB : Nat → Nat → Grid → Nat → List Cand → List Cand)
    (permB : Nat → Nat → List WordDef → List WordDef)
    (gen gen' : Nat → List WordDef → Nat → Nat → Crossword)
    (permU permU' : Nat → List WordDef → List WordDef) (pool : List WordDef)
    (d : Difficulty)
    (h : (usableOf pool d).length < PALABRAS_POR_DIFICULTAD d) :
    buildWith gen permU pool d =
      ⟨⟨(getBoardDimensionsForDifficulty d).1, (getBoardDimensionsForDifficulty d).2, []⟩,
        [], usableOf pool d, omittedOf pool d, PALABRAS_POR_DIFICULTAD d,
        some (insufficientWordsMsg d (PALABRAS_POR_DIFICULTAD d))⟩ ∧
    buildWith gen permU pool d = buildWith gen' permU' pool d ∧
    (buildCrosswordForDifficulty pickB permB permU pool d).error
      = some (insufficientWordsMsg d (PALABRAS_POR_DIFICULTAD d)) := by
  refine ⟨buildWith_insufficient h,
    (buildWith_insufficient h).trans (buildWith_insufficient h).symm, ?_⟩
  unfold buildCrosswordForDifficulty
  rw [buildWith_insufficient h]

/-- Witness for C7 on a three-word pool at the basic tier. -/
theorem insufficient_words_claim_witness :
    (usableOf pool3 Difficulty.basic).length < PALABRAS_POR_DIFICULTAD Difficulty.basic ∧
    (buildCrosswordForDifficulty (fun _ => idPick) (fun _ => idPerm) permU0 pool3
      Difficulty.basic).error
      = some (insufficientWordsMsg Difficulty.basic 5) :=
  ⟨by decide, (insufficient_words_claim (fun _ => idPick) (fun _ => idPerm) gen0 gen0
      permU0 permU0 pool3 Difficulty.basic (by decide)).2.2⟩

/-- C8: both core operations are total Lean functions (termination by
construction, with backtracking depth bounded by the word count via its
fuel); the generator's failure layout appears exactly when each of the
`MAX_RESTARTS = 600` restarts fails, and given a sufficient pool the
could-not-build error appears exactly when each of the
`MAX_SELECTION_ATTEMPTS = 300` sample-and-generate attempts yields a
layout of the wrong size. -/
theorem termination_budgets_claim :
    (∀ (pick : Nat → Grid → Nat → List Cand → List Cand)
       (permW : Nat → List WordDef → List WordDef) (words : List WordDef) (rows cols : Nat),
       words ≠ [] →
       ((generateCrossword pick permW words rows cols).entries = [] ↔
         ∀ r, r < MAX_RESTARTS → restartAttempt pick permW words rows cols r = none)) ∧
    (∀ (gen : Nat → List WordDef → Nat → Nat → Crossword)
       (permU : Nat → List WordDef → List WordDef) (pool : List WordDef) (d : Difficulty),
       PALABRAS_POR_DIFICULTAD d ≤ (usableOf pool d).length →
       ((buildWith gen permU pool d).error
           = some (couldNotBuildMsg d (PALABRAS_POR_DIFICULTAD d)) ↔
         ∀ a, a < MAX_SELECTION_ATTEMPTS →
           (gen a ((permU a (usableOf pool d)).take (PALABRAS_POR_DIFICULTAD d))
             (getBoardDimensionsForDifficulty d).1
             (getBoardDimensionsForDifficulty d).2).entries.length
             ≠ PALABRAS_POR_DIFICULTAD d)) := by
  constructor
  · exact generateCrossword_failure_iff
  · intro gen permU pool d h
    rw [buildWith_couldNot_iff h]
    constructor
    · intro hall a ha
      exact selectionAttempt_none_iff.mp (hall a ha)
    · intro hall a ha
      exact selectionAttempt_none_iff.mpr (hall a ha)

set_option maxRecDepth 100000 in
/-- Witness for C8 on the concrete two-word input. -/
theorem termination_budgets_claim_witness :
    wordsCX ≠ [] ∧
    ((generateCrossword idPick idPerm wordsCX 2 5).entries = [] ↔
      ∀ r, r < MAX_RESTARTS → restartAttempt idPick idPerm wordsCX 2 5 r = none) :=
  ⟨by decide, termination_budgets_claim.1 idPick idPerm wordsCX 2 5 (by decide)⟩

/-- C9: the build partitions the pool so that a word is usable exactly
when its answer length is at most `max(rows, cols)` and omitted exactly
when it exceeds it, with the fixed tier table basic 9x9/5, intermediate
12x12/10, advanced 15x15/15. -/
theorem partition_claim (gen : Nat → List WordDef → Nat → Nat → Crossword)
    (permU : Nat → List WordDef → List WordDef) (pool : List WordDef) (d : Difficulty) :
    (buildWith gen permU pool d).usableWords = usableOf pool d ∧
    (buildWith gen permU pool d).omittedWords = omittedOf pool d ∧
    (buildWith gen permU pool d).requestedWords = PALABRAS_POR_DIFICULTAD d ∧
    (∀ w : WordDef, w ∈ usableOf pool d ↔ w ∈ pool ∧
      w.answer.length ≤ max (getBoardDimensionsForDifficulty d).1
        (getBoardDimensionsForDifficulty d).2) ∧
    (∀ w : WordDef, w ∈ omittedOf pool d ↔ w ∈ pool ∧
      max (getBoardDimensionsForDifficulty d).1
        (getBoardDimensionsForDifficulty d).2 < w.answer.length) ∧
    getBoardDimensionsForDifficulty Difficulty.basic = (9, 9) ∧
    getBoardDimensionsForDifficulty Difficulty.intermediate = (12, 12) ∧
    getBoardDimensionsForDifficulty Difficulty.advanced = (15, 15) ∧
    PALABRAS_POR_DIFICULTAD Difficulty.basic = 5 ∧
    PALABRAS_POR_DIFICULTAD Difficulty.intermediate = 10 ∧
    PALABRAS_POR_DIFICULTAD Difficulty.advanced = 15 := by
  obtain ⟨h1, h2, h3⟩ := buildWith_fields gen permU pool d
  refine ⟨h1, h2, h3, ?_, ?_, rfl, rfl, rfl, rfl, rfl, rfl⟩
  · intro w
    simp [usableOf, List.mem_filter]
  · intro w
    simp [omittedOf, List.mem_filter]

/-- Witness for C9: a length-3 word is usable for the basic tier. -/
theorem partition_claim_witness :
    (⟨['S', 'O', 'L'], "p1"⟩ : WordDef) ∈ usableOf pool3 Difficulty.basic ↔
      (⟨['S', 'O', 'L'], "p1"⟩ : WordDef) ∈ pool3 ∧
      (⟨['S', 'O', 'L'], "p1"⟩ : WordDef).answer.length
        ≤ max (getBoardDimensionsForDifficulty Difficulty.basic).1
            (getBoardDimensionsForDifficulty Difficulty.basic).2 :=
  (partition_claim gen0 permU0 pool3 Difficulty.basic).2.2.2.1 _

end Crucigrama
